import Mathlib

/-!
Shallow embedding of the Smoke-Specialist repository (src/utils.py and
src/pages/visualization.py) for checking its specification claims.

Conventions of the embedding:
* Optional record fields of the FHIR-style objects and of the JSON
  responses are `Option` values; a `none` models an absent field
  (a failed `hasattr` probe or a missing JSON key).
* Fallible Python code is modelled with `Except PyErr`; every raised
  exception of the source (KeyError, IndexError, TypeError,
  UnboundLocalError, `raise Exception(msg)`) becomes an error value.
* The Python dict `aqi_results` is modelled as an insertion-ordered
  association list `ReadingSeries`; `dictUpdate` mirrors Python dict
  update semantics: an existing key keeps its position and gets the new
  value, a new key is appended at the end.
* The sequence of HTTP responses an endpoint would deliver is passed in
  as a list of response values; a pagination loop consumes them in
  order, and running out of scripted responses while the loop still
  wants another page is the transport failing (`PyErr.noResponse`).
-/

namespace SmokeSpecialist

/-- Errors a Python execution of the embedded code can raise. -/
inductive PyErr where
  | keyError (k : String)
  | indexError
  | typeError
  | unboundLocalError
  | exceptionMsg (m : String)
  | noResponse
deriving DecidableEq, Repr

/-- The merged AQI mapping `aqi_results`: an insertion-ordered dict from
timestamp strings to AQI values. -/
abbrev ReadingSeries := List (String × Int)

/-- Python `d.update(k: v)` on an insertion-ordered dict: an existing key
keeps its position and is given the new value, a fresh key is appended. -/
def dictUpdate (d : ReadingSeries) (k : String) (v : Int) : ReadingSeries :=
  if d.any (fun p => p.1 = k) then
    d.map (fun p => if p.1 = k then (k, v) else p)
  else
    d ++ [(k, v)]

/-- The keys of the ordered dict, in insertion order. -/
def dictKeys (d : ReadingSeries) : List String :=
  d.map Prod.fst

/-- Lookup in the ordered dict. -/
def dictLookup (d : ReadingSeries) (k : String) : Option Int :=
  (d.find? (fun p => p.1 = k)).map Prod.snd

/-- One element of an `indexes` array of the air-quality API: only the
`aqi` field is read by the code. -/
structure IndexEntry where
  aqi : Int
deriving DecidableEq, Repr

/-- One element of `hoursInfo` in a history response; `dateTime` and
`indexes` may each be missing. -/
structure HourlyInfo where
  dateTime : Option String
  indexes : Option (List IndexEntry)
deriving DecidableEq, Repr

/-- One page of the history endpoint response. -/
structure HistoryResponse where
  hoursInfo : Option (List HourlyInfo)
  nextPageToken : Option String
deriving DecidableEq, Repr

/-- The currentConditions endpoint response. -/
structure CurrentResponse where
  dateTime : Option String
  indexes : Option (List IndexEntry)
deriving DecidableEq, Repr

/-- One element of `hourlyForecasts` in a forecast response. -/
structure ForecastHour where
  dateTime : Option String
  indexes : Option (List IndexEntry)
deriving DecidableEq, Repr

/-- One page of the forecast endpoint response. -/
structure ForecastResponse where
  hourlyForecasts : Option (List ForecastHour)
  nextPageToken : Option String
deriving DecidableEq, Repr

/-- The history loop body for one hourly result: the source guards with
`if (dateTime in hourly_result) and (indexes in hourly_result)` and silently
skips the entry when the guard fails; with both present it evaluates
`indexes[0].aqi` (IndexError on an empty array) and updates the dict. -/
def processHistoryEntry (d : ReadingSeries) (h : HourlyInfo) : Except PyErr ReadingSeries :=
  match h.dateTime, h.indexes with
  | some t, some idxs =>
    match idxs with
    | [] => .error .indexError
    | i :: _ => .ok (dictUpdate d t i.aqi)
  | _, _ => .ok d

/-- The history page inner loop over all entries of `hoursInfo`. -/
def processHistoryEntries (d : ReadingSeries) : List HourlyInfo → Except PyErr ReadingSeries
  | [] => .ok d
  | h :: rest =>
    match processHistoryEntry d h with
    | .error e => .error e
    | .ok d2 => processHistoryEntries d2 rest

/-- One history page: `response.json()[hoursInfo]` raises KeyError when the
field is absent, then the inner loop runs. -/
def processHistoryPage (d : ReadingSeries) (r : HistoryResponse) : Except PyErr ReadingSeries :=
  match r.hoursInfo with
  | none => .error (.keyError "hoursInfo")
  | some l => processHistoryEntries d l

/-- The history pagination while-loop over a scripted response sequence.
Returns the dict and the number of calls issued. The loop issues another
call exactly when the page just processed carries `nextPageToken`. -/
def processHistoryPages (d : ReadingSeries) : List HistoryResponse → Except PyErr (ReadingSeries × Nat)
  | [] => .error .noResponse
  | r :: rest =>
    match processHistoryPage d r with
    | .error e => .error e
    | .ok d2 =>
      match r.nextPageToken with
      | some _ =>
        match processHistoryPages d2 rest with
        | .error e => .error e
        | .ok (d3, n) => .ok (d3, n + 1)
      | none => .ok (d2, 1)

/-- The currentConditions call: `dateTime` and `indexes` are accessed
directly (KeyError when absent, IndexError on an empty `indexes`). -/
def processCurrent (d : ReadingSeries) (r : CurrentResponse) : Except PyErr ReadingSeries :=
  match r.dateTime with
  | none => .error (.keyError "dateTime")
  | some t =>
    match r.indexes with
    | none => .error (.keyError "indexes")
    | some [] => .error .indexError
    | some (i :: _) => .ok (dictUpdate d t i.aqi)

/-- The forecast loop body for one hourly forecast: `dateTime` and
`indexes` are accessed directly, with no presence guard. -/
def processForecastEntry (d : ReadingSeries) (h : ForecastHour) : Except PyErr ReadingSeries :=
  match h.dateTime with
  | none => .error (.keyError "dateTime")
  | some t =>
    match h.indexes with
    | none => .error (.keyError "indexes")
    | some [] => .error .indexError
    | some (i :: _) => .ok (dictUpdate d t i.aqi)

/-- The forecast page inner loop over all entries of `hourlyForecasts`. -/
def processForecastEntries (d : ReadingSeries) : List ForecastHour → Except PyErr ReadingSeries
  | [] => .ok d
  | h :: rest =>
    match processForecastEntry d h with
    | .error e => .error e
    | .ok d2 => processForecastEntries d2 rest

/-- One forecast page: `response.json()[hourlyForecasts]` raises KeyError
when the field is absent. -/
def processForecastPage (d : ReadingSeries) (r : ForecastResponse) : Except PyErr ReadingSeries :=
  match r.hourlyForecasts with
  | none => .error (.keyError "hourlyForecasts")
  | some l => processForecastEntries d l

/-- The forecast pagination while-loop over a scripted response sequence. -/
def processForecastPages (d : ReadingSeries) : List ForecastResponse → Except PyErr (ReadingSeries × Nat)
  | [] => .error .noResponse
  | r :: rest =>
    match processForecastPage d r with
    | .error e => .error e
    | .ok d2 =>
      match r.nextPageToken with
      | some _ =>
        match processForecastPages d2 rest with
        | .error e => .error e
        | .ok (d3, n) => .ok (d3, 1 + n)
      | none => .ok (d2, 1)

/-- The environmental aggregation of `handle_callback`: the source loop is
`for time in [forecast, currentConditions, history]`, so the forecast call
runs first, then current conditions, then history, all updating the one
dict `aqi_results`; any raised error aborts the whole aggregation. -/
def aggregateEnvironmental (fcPages : List ForecastResponse) (cur : CurrentResponse)
    (histPages : List HistoryResponse) : Except PyErr ReadingSeries :=
  match processForecastPages [] fcPages with
  | .error e => .error e
  | .ok (d1, _) =>
    match processCurrent d1 cur with
    | .error e => .error e
    | .ok d2 =>
      match processHistoryPages d2 histPages with
      | .error e => .error e
      | .ok (d3, _) => .ok d3

/-- Python string `<=` on the code points, on the underlying character
lists: lexicographic comparison. -/
def pyStrLeList : List Char → List Char → Bool
  | [], _ => true
  | _ :: _, [] => false
  | a :: as, b :: bs =>
    if a.toNat < b.toNat then true
    else if b.toNat < a.toNat then false
    else pyStrLeList as bs

/-- Python string `<=`. -/
def pyStrLe (a b : String) : Bool :=
  pyStrLeList a.data b.data

/-- The observed chart trace of `handle_callback`: the dict entries whose
timestamp string compares `<=` the formatted current datetime, in dict
iteration order (the source builds the x and y lists by the same filter). -/
def observedSeries (d : ReadingSeries) (nowStr : String) : ReadingSeries :=
  d.filter (fun p => pyStrLe p.1 nowStr)

/-- The forecast chart trace of `handle_callback`: the dict entries whose
timestamp string compares `>=` the formatted current datetime, in dict
iteration order. -/
def forecastSeries (d : ReadingSeries) (nowStr : String) : ReadingSeries :=
  d.filter (fun p => pyStrLe nowStr p.1)

/-- Whether a sequence of readings is sorted ascending by timestamp:
every adjacent pair compares `<=`. -/
def seriesSortedAsc : ReadingSeries → Bool
  | [] => true
  | [_] => true
  | a :: b :: rest => pyStrLe a.1 b.1 && seriesSortedAsc (b :: rest)

/-- A FHIR HumanName as read by `get_patient_demographics`: `use` is the
use-code string, `given` the list of given names, `family` the family
name, `text` the optional precomposed full-text form. -/
structure HumanName where
  use : String
  given : List String
  family : String
  text : Option String
deriving DecidableEq, Repr

/-- The possible values of the Python local variable `name` inside
`get_patient_demographics`: initially None, then a whole HumanName record
(the loop variable shadows the outer variable), possibly a formatted
string. -/
inductive PyNameVal where
  | pyNone
  | record (h : HumanName)
  | str (s : String)
deriving DecidableEq, Repr

/-- Python truthiness of the `name` variable: None is falsy, a record
object is truthy, a string is truthy when nonempty. -/
def PyNameVal.truthy : PyNameVal → Bool
  | .pyNone => false
  | .record _ => true
  | .str s => s ≠ ""

/-- The source expression
`name.text if name.text is not None else " ".join(name.given) + " " + name.family`. -/
def formatName (n : HumanName) : String :=
  match n.text with
  | some t => t
  | none => String.intercalate " " n.given ++ " " ++ n.family

/-- Python substring containment, the `in` operator on strings. -/
def strContains (hay needle : String) : Bool :=
  (List.range (hay.data.length + 1)).any (fun i => needle.data.isPrefixOf (hay.data.drop i))

/-- The `for name in patient.name` loop: each iteration first rebinds the
variable to the current record; when the use-code contains "official" the
variable is set to the formatted name and the loop breaks. -/
def nameLoop : List HumanName → PyNameVal → PyNameVal
  | [], acc => acc
  | n :: rest, _ =>
    if strContains n.use "official" then .str (formatName n)
    else nameLoop rest (.record n)

/-- Name selection of `get_patient_demographics`: run the loop, then the
`if not name` fallback formats the first entry; with an empty name list
the fallback indexes `patient.name[0]` and raises IndexError. -/
def resolveName (names : List HumanName) : Except PyErr PyNameVal :=
  let r := nameLoop names .pyNone
  if r.truthy then .ok r
  else
    match names with
    | [] => .error .indexError
    | n0 :: _ => .ok (.str (formatName n0))

/-- A FHIR Address as read by `get_patient_demographics`. The source probes
only `line` with hasattr; the other component reads are guarded by the
always-true tuple `(address, field)`, so they are plain field reads here. -/
structure Address where
  text : Option String
  line : List String
  city : String
  district : String
  state : String
  postalCode : String
  country : String
deriving DecidableEq, Repr

/-- The concatenation branch for a single address:
`", ".join(filter(None, [", ".join(lines), city, district, state, postal_code, country]))`. -/
def joinAddress (a : Address) : String :=
  String.intercalate ", "
    ((String.intercalate ", " a.line :: a.city :: a.district :: a.state ::
      a.postalCode :: a.country :: []).filter (fun s => s ≠ ""))

/-- The address logic of `get_patient_demographics`: exactly one address
uses its truthy `text` or else the concatenation; more than one raises
`Exception("Multiple addresses detected!")`; zero addresses leaves the
local variable unassigned, so the final `return` raises
UnboundLocalError. -/
def resolveAddress (addrs : List Address) : Except PyErr String :=
  match addrs with
  | [a] =>
    match a.text with
    | some t => if t = "" then .ok (joinAddress a) else .ok t
    | none => .ok (joinAddress a)
  | _ :: _ :: _ => .error (.exceptionMsg "Multiple addresses detected!")
  | [] => .error .unboundLocalError

/-- A FHIR Patient as read by `get_patient_demographics`. -/
structure Patient where
  name : List HumanName
  gender : Option String
  birthDate : Option String
  address : List Address
deriving DecidableEq, Repr

/-- `utils.get_patient_demographics`: returns (name, sex, birthday,
address); sex falls back to "Unknown" when `patient.gender` is falsy and
birthday to "Unknown" when `patient.birthDate` is None. -/
def get_patient_demographics (p : Patient) : Except PyErr (PyNameVal × String × String × String) :=
  match resolveName p.name with
  | .error e => .error e
  | .ok nm =>
    let sex : String :=
      match p.gender with
      | some g => if g = "" then "Unknown" else g
      | none => "Unknown"
    let birthday : String :=
      match p.birthDate with
      | some b => b
      | none => "Unknown"
    match resolveAddress p.address with
    | .error e => .error e
    | .ok addr => .ok (nm, sex, birthday, addr)

/-- A FHIR Coding as read by `generate_clinical_details_table`: only
`code` and (optionally present) `display` are used. -/
structure Coding where
  code : String
  display : Option String
deriving DecidableEq, Repr

/-- A FHIR CodeableConcept: optionally present `text` and `coding`
fields. -/
structure CodeableConcept where
  text : Option String
  coding : Option (List Coding)
deriving DecidableEq, Repr

/-- The inner `for coding in condition.code.coding` loop: the first entry
with a `display` field sets the name and breaks; otherwise the
accumulator (the prior value of `condition_name`) survives. -/
def firstDisplayLoop : List Coding → String → String
  | [], acc => acc
  | c :: rest, acc =>
    match c.display with
    | some d => d
    | none => firstDisplayLoop rest acc

/-- Condition-name resolution of `generate_clinical_details_table`: the
name starts as the empty string; with the `code` field present, its
`text` wins, else the coding loop runs, else (code present, neither text
nor coding) the source raises; with no `code` field at all nothing runs
and the empty name is kept. -/
def resolveConditionName (code : Option CodeableConcept) : Except PyErr String :=
  match code with
  | none => .ok ""
  | some c =>
    match c.text with
    | some t => .ok t
    | none =>
      match c.coding with
      | some l => .ok (firstDisplayLoop l "")
      | none => .error (.exceptionMsg "A Condition resource has no 'code' element")

/-- Clinical-status resolution of `generate_clinical_details_table`: the
status starts as "Unknown"; a present `text` overwrites it, and then a
present `coding` overwrites it again with `coding[0].code` (two separate
`if` statements, not an elif), raising IndexError on an empty coding
array. -/
def resolveClinicalStatus (cs : Option CodeableConcept) : Except PyErr String :=
  match cs with
  | none => .ok "Unknown"
  | some c =>
    let s : String :=
      match c.text with
      | some t => t
      | none => "Unknown"
    match c.coding with
    | none => .ok s
    | some [] => .error .indexError
    | some (c0 :: _) => .ok c0.code

/-- `utils.generate_prompt`: the fixed f-string template over the string
renderings of its seven parameters. The template text is transcribed from
the source, including the leading stray double quote the quadruple quote
produces and the trailing spaces inside the source lines. -/
def generate_prompt (sex date_of_birth health_conditions encounters medication_administrations current_dt combined_environmental_data : String) : String :=
  "\"\n    -------------------------------\n    Prompt Context\n\n    You have been approached by a healthcare professional seeking consultation on how to mitigate the health risks or treat the health complications \n    associated with climate-related events, such as heat waves or forest fires. Your role as the AI specialist is to provide a consultation based on \n    the specific characteristics and surrounding environment of the patient, like their demographics, health conditions, medications, encounter history, AQI, \n    temperature, and apparent temperature.\n    -------------------------------\n    Patient Details\n\n    Sex: "
    ++ sex
    ++ "\n    Date of Birth: "
    ++ date_of_birth
    ++ "\n    Health Conditions: "
    ++ health_conditions
    ++ "\n    Encounters: "
    ++ encounters
    ++ "\n    Medication Administrations: "
    ++ medication_administrations
    ++ "\n\n    Here is the past, present, and forecasted environmental data (in a tabular format) for the patient's primary address. Its columns include time, \n    air quality index measurements, temperature (Fahrenheit), and apparent temperature (Fahrenheit). Right now, The current datetime is "
    ++ current_dt
    ++ ".\n    \n    "
    ++ combined_environmental_data
    ++ "\n\n    -------------------------------\n    "

/-- Python call semantics for `generate_prompt`, which is defined with
seven required positional parameters: a call with any other number of
arguments raises TypeError before the body runs. Arguments are passed as
the list of their string renderings. -/
def callGeneratePrompt (args : List String) : Except PyErr String :=
  match args with
  | [a1, a2, a3, a4, a5, a6, a7] => .ok (generate_prompt a1 a2 a3 a4 a5 a6 a7)
  | _ => .error .typeError

/-- The prompt-construction step of `handle_callback`: the source calls
`generate_prompt` with exactly five arguments (patient.gender,
patient.birthDate.isostring, all_health_conditions, the formatted current
datetime, and aqi_results). -/
def handleCallbackPromptStep (gender birthIso healthConds currentDtStr aqiResultsStr : String) : Except PyErr String :=
  callGeneratePrompt [gender, birthIso, healthConds, currentDtStr, aqiResultsStr]

/-! ## Helper definitions for the pagination claims -/

/-- Whether one history hourly entry avoids raising: the loop body raises
IndexError exactly when the entry has a dateTime and an empty indexes
array; every other shape either updates the dict or is skipped. -/
def entryOk (h : HourlyInfo) : Bool :=
  match h.dateTime, h.indexes with
  | some _, some [] => false
  | _, _ => true

/-- The reading one history hourly entry contributes: present exactly
when both guarded fields are present and the indexes array is
nonempty. -/
def entryReading (h : HourlyInfo) : Option (String × Int) :=
  match h.dateTime, h.indexes with
  | some t, some (i :: _) => some (t, i.aqi)
  | _, _ => none

/-- Whether a history page processes without raising. -/
def pageOk (r : HistoryResponse) : Bool :=
  match r.hoursInfo with
  | none => false
  | some l => l.all entryOk

/-- The readings a history page emits, in order. -/
def pageReadings (r : HistoryResponse) : List (String × Int) :=
  match r.hoursInfo with
  | none => []
  | some l => l.filterMap entryReading

/-- One dict update step, folded over a list of readings. -/
def updateStep (acc : ReadingSeries) (tv : String × Int) : ReadingSeries :=
  dictUpdate acc tv.1 tv.2

/-- All readings emitted across a page sequence, in emission order. -/
def allPageReadings (pages : List HistoryResponse) : List (String × Int) :=
  (pages.map pageReadings).flatten

/-- Whether one forecast hourly entry avoids raising: the forecast loop
body accesses `dateTime` and `indexes[0]` with no presence guard, so it
raises unless both fields are present and the indexes array is
nonempty. -/
def fcEntryOk (h : ForecastHour) : Bool :=
  match h.dateTime, h.indexes with
  | some _, some (_ :: _) => true
  | _, _ => false

/-- The reading one forecast hourly entry contributes when it does not
raise. -/
def fcEntryReading (h : ForecastHour) : Option (String × Int) :=
  match h.dateTime, h.indexes with
  | some t, some (i :: _) => some (t, i.aqi)
  | _, _ => none

/-- Whether a forecast page processes without raising. -/
def fcPageOk (r : ForecastResponse) : Bool :=
  match r.hourlyForecasts with
  | none => false
  | some l => l.all fcEntryOk

/-- The readings a forecast page emits, in order. -/
def fcPageReadings (r : ForecastResponse) : List (String × Int) :=
  match r.hourlyForecasts with
  | none => []
  | some l => l.filterMap fcEntryReading

/-- All readings emitted across a forecast page sequence, in emission
order. -/
def allFcPageReadings (pages : List ForecastResponse) : List (String × Int) :=
  (pages.map fcPageReadings).flatten

/-- A link element of a FHIR Bundle as read by `fetch_all_resources`:
only `relation` and `url` are used. -/
structure BundleLink where
  relation : String
  url : String
deriving DecidableEq, Repr

/-- A FHIR Bundle as read by `utils.fetch_all_resources`: `entry` is an
optional list of resources (each modelled by an identifier string) and
`link` the list of paging links. -/
structure FHIRBundle where
  entry : Option (List String)
  link : List BundleLink
deriving DecidableEq, Repr

/-- The source expression
`next((link.url for link in next_url.link if link.relation == 'next'), None)`. -/
def nextLink (links : List BundleLink) : Option String :=
  (links.find? (fun l => l.relation = "next")).map BundleLink.url

/-- The resources one bundle contributes: the truthiness test
`if next_url.entry:` skips a missing or empty entry list, which adds
nothing either way. -/
def bundleEntries (b : FHIRBundle) : List String :=
  match b.entry with
  | some l => l
  | none => []

/-- The `utils.fetch_all_resources` while-loop over scripted bundle
responses: the first scripted bundle answers the initial `.perform`
call and each later one the `Bundle.read_from` of the returned next
link; `if next_url.entry:` extends the resource list only for a present
nonempty entry list; the loop repeats exactly while a next link is
present. Returns the resources and the number of calls issued. -/
def fetch_all_resources (resources : List String) : List FHIRBundle → Except PyErr (List String × Nat)
  | [] => .error .noResponse
  | b :: rest =>
    let resources2 :=
      match b.entry with
      | some (x :: xs) => resources ++ x :: xs
      | _ => resources
    match nextLink b.link with
    | some _ =>
      match fetch_all_resources resources2 rest with
      | .error e => .error e
      | .ok (res, n) => .ok (res, n + 1)
    | none => .ok (resources2, 1)

/-! ## Claim theorems -/

/-- Python string comparison is reflexive. -/
theorem pyStrLeList_refl (l : List Char) : pyStrLeList l l = true := by
  induction l with
  | nil => rfl
  | cons a as ih => simp [pyStrLeList, Nat.lt_irrefl, ih]

/-- Python string comparison is reflexive. -/
theorem pyStrLe_refl (a : String) : pyStrLe a a = true :=
  pyStrLeList_refl a.data

/-- C1 counterexample. The claim predicts that with a history reading and
the current-conditions reading sharing the timestamp 2024-06-01T00:00:00Z
(history value 9, current value 5), the later call of its claimed order
history, current, forecast overwrites, so the merged value would be the
current value 5. The code evaluates forecast, current, history in that
order, so the history value 9 is what the merged series holds. -/
theorem c1_order_counterexample :
    aggregateEnvironmental [⟨some [], none⟩]
      ⟨some "2024-06-01T00:00:00Z", some [⟨5⟩]⟩
      [⟨some [⟨some "2024-06-01T00:00:00Z", some [⟨9⟩]⟩], none⟩]
      = .ok [("2024-06-01T00:00:00Z", 9)] ∧ (9 : Int) ≠ 5 := by
  exact ⟨rfl, by decide⟩

/-- C1 (amended). The three endpoint calls are issued sequentially in the
fixed order forecast, current, history, and when two calls produce a
reading with the same timestamp key the value from the later call in
that evaluation order (history last) overwrites the earlier value: on a
triple collision the history value wins, and on a current-forecast
collision the current value wins. -/
theorem c1_evaluation_order (T : String) (vF vC vH : Int) :
    aggregateEnvironmental [⟨some [⟨some T, some [⟨vF⟩]⟩], none⟩]
        ⟨some T, some [⟨vC⟩]⟩ [⟨some [⟨some T, some [⟨vH⟩]⟩], none⟩]
      = .ok [(T, vH)] ∧
    aggregateEnvironmental [⟨some [⟨some T, some [⟨vF⟩]⟩], none⟩]
        ⟨some T, some [⟨vC⟩]⟩ [⟨some [], none⟩]
      = .ok [(T, vC)] := by
  constructor <;>
    simp [aggregateEnvironmental, processForecastPages, processForecastPage,
      processForecastEntries, processForecastEntry, processCurrent,
      processHistoryPages, processHistoryPage, processHistoryEntries,
      processHistoryEntry, dictUpdate]

/-- C5 counterexample. A condition whose clinicalStatus carries both a
precomposed text ("Active (text)") and a coded entry (code "active")
resolves to the coded value, not the text: the second `if` statement
overwrites what the first assigned. -/
theorem c5_status_counterexample :
    resolveClinicalStatus (some ⟨some "Active (text)", some [⟨"active", none⟩]⟩)
      = .ok "active" ∧ "active" ≠ "Active (text)" := by
  exact ⟨rfl, by decide⟩

/-- C5 (amended). In the status resolution, when a condition record
carries both a precomposed text status and a coded status, the first
coded entry's code is the resulting clinical status (coded overrides
text); when neither is present the clinical status defaults to
"Unknown", whether the clinicalStatus element is absent or carries
neither field. -/
theorem c5_status_resolution (t c : String) (d : Option String) (rest : List Coding) :
    resolveClinicalStatus (some ⟨some t, some (⟨c, d⟩ :: rest)⟩) = .ok c ∧
    resolveClinicalStatus none = .ok "Unknown" ∧
    resolveClinicalStatus (some ⟨none, none⟩) = .ok "Unknown" := by
  exact ⟨rfl, rfl, rfl⟩

/-- C9 counterexample. A condition whose code element has no text and a
single coded entry without a display string yields the empty string as
its name with no error raised, and a condition with no code element at
all also yields the empty string: the claimed missing-condition-name
error is not raised in either case. -/
theorem c9_missing_name_counterexample :
    resolveConditionName (some ⟨none, some [⟨"c0", none⟩]⟩) = .ok "" ∧
    resolveConditionName none = .ok "" := by
  exact ⟨rfl, rfl⟩

/-- C9 (amended). The condition name is the precomposed text when
present, otherwise the display string of the first coded entry that has
one; when coded entries exist but none has a display, or when the code
element is absent altogether, the name is the empty string and no error
is raised; the missing-condition-name error is raised exactly when the
code element is present but has neither a text nor a coding field. -/
theorem c9_name_resolution :
    (∀ (t : String) (cod : Option (List Coding)),
      resolveConditionName (some ⟨some t, cod⟩) = .ok t) ∧
    (∀ (pre : List Coding) (c : Coding) (d : String) (post : List Coding),
      (∀ x ∈ pre, x.display = none) → c.display = some d →
      resolveConditionName (some ⟨none, some (pre ++ c :: post)⟩) = .ok d) ∧
    (∀ l : List Coding, (∀ x ∈ l, x.display = none) →
      resolveConditionName (some ⟨none, some l⟩) = .ok "") ∧
    resolveConditionName (some ⟨none, none⟩)
      = .error (.exceptionMsg "A Condition resource has no 'code' element") ∧
    resolveConditionName none = .ok "" := by
  have loopSkip : ∀ (l : List Coding) (acc : String),
      (∀ x ∈ l, x.display = none) → firstDisplayLoop l acc = acc := by
    intro l
    induction l with
    | nil => intro acc _; rfl
    | cons c rest ih =>
      intro acc hall
      have hc : c.display = none := hall c (List.mem_cons_self c rest)
      simp [firstDisplayLoop, hc]
      exact ih acc (fun x hx => hall x (List.mem_cons_of_mem c hx))
  have loopFind : ∀ (pre : List Coding) (c : Coding) (d : String) (post : List Coding) (acc : String),
      (∀ x ∈ pre, x.display = none) → c.display = some d →
      firstDisplayLoop (pre ++ c :: post) acc = d := by
    intro pre
    induction pre with
    | nil =>
      intro c d post acc _ hd
      simp [firstDisplayLoop, hd]
    | cons p rest ih =>
      intro c d post acc hall hd
      have hp : p.display = none := hall p (List.mem_cons_self p rest)
      simp [firstDisplayLoop, hp]
      exact ih c d post acc (fun x hx => hall x (List.mem_cons_of_mem p hx)) hd
  refine ⟨fun t cod => rfl, ?_, ?_, rfl, rfl⟩
  · intro pre c d post hall hd
    simp [resolveConditionName, loopFind pre c d post "" hall hd]
  · intro l hall
    simp [resolveConditionName, loopSkip l "" hall]

/-- C9 witness: the amended theorem applied to a concrete coding list
whose first entry has no display and whose second displays "Asthma". -/
theorem c9_name_resolution_witness :
    resolveConditionName (some ⟨none, some ([⟨"c0", none⟩] ++ ⟨"c1", some "Asthma"⟩ :: [])⟩)
      = .ok "Asthma" :=
  c9_name_resolution.2.1 [⟨"c0", none⟩] ⟨"c1", some "Asthma"⟩ "Asthma" []
    (by decide) rfl

/-- C4: the source contradicts its own comment "if no official name
found, use the first one available". With two name entries, neither of
use-code "official", the loop variable shadowing leaves the `name`
variable bound to the last raw name record, which is truthy, so the
first-entry fallback never runs: the result is the unformatted last
record rather than the formatted first entry "John Smith". -/
theorem c4_shadowed_name_fallback :
    resolveName [⟨"usual", ["John"], "Smith", none⟩, ⟨"maiden", ["Jane"], "Doe", none⟩]
      = .ok (.record ⟨"maiden", ["Jane"], "Doe", none⟩) ∧
    PyNameVal.record ⟨"maiden", ["Jane"], "Doe", none⟩
      ≠ .str (formatName ⟨"usual", ["John"], "Smith", none⟩) := by
  exact ⟨rfl, fun h => PyNameVal.noConfusion h⟩

/-- C10. The prompt-construction step of `handle_callback` passes five
arguments to `generate_prompt`, which requires seven positional
parameters, so for every input reaching the call the invocation raises
TypeError and no prompt string is produced. -/
theorem c10_prompt_arity (gender birthIso healthConds currentDtStr aqiResultsStr : String) :
    handleCallbackPromptStep gender birthIso healthConds currentDtStr aqiResultsStr
      = .error .typeError := by
  rfl

/-- C2: the chart series are not sorted. The source comment says "Sort
the AQI results in ascending order" but the sorting statement is
commented out, so the splitter hands the dict insertion order to the
renderer. Aggregating a history reading at 2024-05-01, the current
reading at 2024-05-02 and a forecast reading at 2024-05-03 inserts the
forecast reading first, and with now = 2024-05-02 both output series
come out in descending timestamp order. -/
theorem c2_series_not_sorted :
    aggregateEnvironmental [⟨some [⟨some "2024-05-03T00:00:00Z", some [⟨3⟩]⟩], none⟩]
        ⟨some "2024-05-02T00:00:00Z", some [⟨2⟩]⟩
        [⟨some [⟨some "2024-05-01T00:00:00Z", some [⟨1⟩]⟩], none⟩]
      = .ok [("2024-05-03T00:00:00Z", 3), ("2024-05-02T00:00:00Z", 2),
             ("2024-05-01T00:00:00Z", 1)] ∧
    observedSeries [("2024-05-03T00:00:00Z", 3), ("2024-05-02T00:00:00Z", 2),
        ("2024-05-01T00:00:00Z", 1)] "2024-05-02T00:00:00Z"
      = [("2024-05-02T00:00:00Z", 2), ("2024-05-01T00:00:00Z", 1)] ∧
    seriesSortedAsc
        (observedSeries [("2024-05-03T00:00:00Z", 3), ("2024-05-02T00:00:00Z", 2),
          ("2024-05-01T00:00:00Z", 1)] "2024-05-02T00:00:00Z") = false ∧
    seriesSortedAsc
        (forecastSeries [("2024-05-03T00:00:00Z", 3), ("2024-05-02T00:00:00Z", 2),
          ("2024-05-01T00:00:00Z", 1)] "2024-05-02T00:00:00Z") = false := by
  exact ⟨rfl, rfl, rfl, rfl⟩

/-- C3 counterexample. A history page whose second hourly entry carries a
dateTime but no indexes field is silently skipped: the aggregation
succeeds and returns a series missing that reading, instead of failing
as the claim states. -/
theorem c3_silent_skip_counterexample :
    aggregateEnvironmental [⟨some [], none⟩]
        ⟨some "2024-06-01T01:00:00Z", some [⟨2⟩]⟩
        [⟨some [⟨some "2024-06-01T00:00:00Z", some [⟨1⟩]⟩,
                ⟨some "2024-05-31T23:00:00Z", none⟩], none⟩]
      = .ok [("2024-06-01T01:00:00Z", 2), ("2024-06-01T00:00:00Z", 1)] ∧
    dictLookup [("2024-06-01T01:00:00Z", 2), ("2024-06-01T00:00:00Z", 1)]
        "2024-05-31T23:00:00Z" = none := by
  exact ⟨rfl, rfl⟩

/-- C6. For every merged series and every formatted current datetime, a
reading whose timestamp equals the current datetime string appears in
both the observed series and the forecast series; every observed-series
timestamp compares at most the current datetime and every
forecast-series timestamp compares at least it. -/
theorem c6_boundary_in_both (d : ReadingSeries) (nowStr : String) (v : Int)
    (h : (nowStr, v) ∈ d) :
    ((nowStr, v) ∈ observedSeries d nowStr ∧ (nowStr, v) ∈ forecastSeries d nowStr) ∧
    (∀ p ∈ observedSeries d nowStr, pyStrLe p.1 nowStr = true) ∧
    (∀ p ∈ forecastSeries d nowStr, pyStrLe nowStr p.1 = true) := by
  refine ⟨⟨?_, ?_⟩, ?_, ?_⟩
  · exact List.mem_filter.mpr ⟨h, pyStrLe_refl nowStr⟩
  · exact List.mem_filter.mpr ⟨h, pyStrLe_refl nowStr⟩
  · intro p hp
    exact (List.mem_filter.mp hp).2
  · intro p hp
    exact (List.mem_filter.mp hp).2

/-- C6 witness: the boundary reading ("b", 2) of a concrete two-element
series with now = "b" lands in both output series, and the comparison
bounds hold for that series. -/
theorem c6_boundary_in_both_witness :
    ((("b", (2 : Int)) ∈ observedSeries [("b", 2), ("a", 1)] "b" ∧
      ("b", (2 : Int)) ∈ forecastSeries [("b", 2), ("a", 1)] "b") ∧
     (∀ p ∈ observedSeries [("b", 2), ("a", 1)] "b", pyStrLe p.1 "b" = true) ∧
     (∀ p ∈ forecastSeries [("b", 2), ("a", 1)] "b", pyStrLe "b" p.1 = true)) :=
  c6_boundary_in_both [("b", 2), ("a", 1)] "b" 2 (by simp)

/-- Helper for C8: with a nonempty name list, name selection never
raises: the loop either formats an official entry, or leaves the
variable holding the truthy last record, or the fallback formats the
first entry. -/
theorem resolveName_ok_of_ne_nil (names : List HumanName) (h : names ≠ []) :
    ∃ r, resolveName names = .ok r := by
  unfold resolveName
  by_cases ht : (nameLoop names .pyNone).truthy
  · exact ⟨nameLoop names .pyNone, by simp [ht]⟩
  · match names, h with
    | n0 :: rest, _ =>
      exact ⟨.str (formatName n0), by simp [ht]⟩

/-- C8. For every patient record with at least one name entry, the
demographics extraction returns a value exactly when the patient has
exactly one address; with more than one address it raises the
multiple-addresses exception, and with zero addresses it fails with
UnboundLocalError (the address variable is never assigned before the
return). -/
theorem c8_address_cardinality (p : Patient) (hn : p.name ≠ []) :
    ((∃ out, get_patient_demographics p = .ok out) ↔ p.address.length = 1) ∧
    (1 < p.address.length →
      get_patient_demographics p = .error (.exceptionMsg "Multiple addresses detected!")) ∧
    (p.address.length = 0 → get_patient_demographics p = .error .unboundLocalError) := by
  obtain ⟨nm, hnm⟩ := resolveName_ok_of_ne_nil p.name hn
  match haddr : p.address with
  | [] =>
    refine ⟨⟨fun ⟨out, hout⟩ => ?_, fun h1 => by simp at h1⟩, fun h1 => by simp at h1, fun _ => ?_⟩
    · simp [get_patient_demographics, hnm, haddr, resolveAddress] at hout
    · simp [get_patient_demographics, hnm, haddr, resolveAddress]
  | [a] =>
    have haok : ∃ s, resolveAddress [a] = .ok s := by
      cases hta : a.text with
      | none => exact ⟨joinAddress a, by simp [resolveAddress, hta]⟩
      | some t =>
        by_cases hte : t = ""
        · exact ⟨joinAddress a, by simp [resolveAddress, hta, hte]⟩
        · exact ⟨t, by simp [resolveAddress, hta, hte]⟩
    obtain ⟨s, hs⟩ := haok
    refine ⟨⟨fun _ => rfl, fun _ => ?_⟩, fun h1 => by simp at h1, fun h0 => by simp at h0⟩
    refine ⟨(nm,
      (match p.gender with
        | some g => if g = "" then "Unknown" else g
        | none => "Unknown"),
      (match p.birthDate with
        | some b => b
        | none => "Unknown"), s), ?_⟩
    simp [get_patient_demographics, hnm, haddr, hs]
  | a :: b :: rest =>
    refine ⟨⟨fun ⟨out, hout⟩ => ?_, fun h1 => by simp at h1⟩, fun _ => ?_, fun h0 => by simp at h0⟩
    · simp [get_patient_demographics, hnm, haddr, resolveAddress] at hout
    · simp [get_patient_demographics, hnm, haddr, resolveAddress]

/-- C8 witness: a patient with one name entry and two addresses makes
the extraction raise the multiple-addresses exception. -/
theorem c8_address_cardinality_witness :
    get_patient_demographics
        ⟨[⟨"official", ["Ada"], "Lovelace", none⟩], some "female", some "1980-01-01",
         [⟨some "1 First St", [], "", "", "", "", ""⟩, ⟨some "2 Second St", [], "", "", "", "", ""⟩]⟩
      = .error (.exceptionMsg "Multiple addresses detected!") :=
  (c8_address_cardinality
      ⟨[⟨"official", ["Ada"], "Lovelace", none⟩], some "female", some "1980-01-01",
       [⟨some "1 First St", [], "", "", "", "", ""⟩, ⟨some "2 Second St", [], "", "", "", "", ""⟩]⟩
      (by simp)).2.1 (by simp)

/-- A well-formed history page list processes entrywise to a fold of
dict updates over the readings it emits. -/
theorem processHistoryEntries_ok : ∀ (l : List HourlyInfo) (d : ReadingSeries),
    l.all entryOk = true →
    processHistoryEntries d l = .ok (List.foldl updateStep d (l.filterMap entryReading))
  | [], _, _ => rfl
  | ⟨dt, idx⟩ :: rest, d, hall => by
    rw [List.all_cons, Bool.and_eq_true] at hall
    obtain ⟨h1, h2⟩ := hall
    cases dt with
    | none =>
      cases idx with
      | none =>
        simpa [processHistoryEntries, processHistoryEntry, entryReading] using
          processHistoryEntries_ok rest d h2
      | some l2 =>
        simpa [processHistoryEntries, processHistoryEntry, entryReading] using
          processHistoryEntries_ok rest d h2
    | some t =>
      cases idx with
      | none =>
        simpa [processHistoryEntries, processHistoryEntry, entryReading] using
          processHistoryEntries_ok rest d h2
      | some l2 =>
        cases l2 with
        | nil => simp [entryOk] at h1
        | cons i is =>
          simpa [processHistoryEntries, processHistoryEntry, entryReading, updateStep] using
            processHistoryEntries_ok rest (dictUpdate d t i.aqi) h2

/-- A well-formed history page processes to a fold of dict updates over
its readings. -/
theorem processHistoryPage_ok (r : HistoryResponse) (d : ReadingSeries)
    (h : pageOk r = true) :
    processHistoryPage d r = .ok (List.foldl updateStep d (pageReadings r)) := by
  cases hh : r.hoursInfo with
  | none => simp [pageOk, hh] at h
  | some l =>
    rw [pageOk, hh] at h
    simp [processHistoryPage, hh, pageReadings, processHistoryEntries_ok l d h]

/-- The pagination loop over well-formed pages, of which exactly the last
lacks a continuation token: it consumes every page, issues one call per
page, and folds every emitted reading into the dict in order. -/
theorem processHistoryPages_ok : ∀ (ps : List HistoryResponse) (plast : HistoryResponse)
    (d : ReadingSeries),
    (∀ p ∈ ps, p.nextPageToken.isSome = true) →
    plast.nextPageToken = none →
    (∀ p ∈ ps, pageOk p = true) →
    pageOk plast = true →
    processHistoryPages d (ps ++ [plast]) =
      .ok (List.foldl updateStep d (allPageReadings (ps ++ [plast])), ps.length + 1)
  | [], plast, d, _, hLast, _, hOkLast => by
    simp [processHistoryPages, processHistoryPage_ok plast d hOkLast, hLast,
      allPageReadings]
  | p :: ps, plast, d, hTok, hLast, hOkPs, hOkLast => by
    have hp := processHistoryPage_ok p d (hOkPs p (List.mem_cons_self p ps))
    obtain ⟨tk, htk⟩ := Option.isSome_iff_exists.mp (hTok p (List.mem_cons_self p ps))
    have ih := processHistoryPages_ok ps plast (List.foldl updateStep d (pageReadings p))
      (fun q hq => hTok q (List.mem_cons_of_mem p hq)) hLast
      (fun q hq => hOkPs q (List.mem_cons_of_mem p hq)) hOkLast
    simp [processHistoryPages, hp, htk, ih, allPageReadings, List.foldl_append]

/-- The key just updated is a key of the updated dict. -/
theorem mem_dictKeys_update (d : ReadingSeries) (k : String) (v : Int) :
    k ∈ dictKeys (dictUpdate d k v) := by
  by_cases h : d.any (fun p => p.1 = k) = true
  · rw [dictUpdate, if_pos h]
    obtain ⟨q, hq, hqk⟩ := List.any_eq_true.mp h
    have hqk2 : q.1 = k := of_decide_eq_true hqk
    exact List.mem_map.mpr ⟨(k, v), List.mem_map.mpr ⟨q, hq, by simp [hqk2]⟩, rfl⟩
  · rw [dictUpdate, if_neg h]
    simp [dictKeys]

/-- A dict update never removes a key. -/
theorem mem_dictKeys_update_of_mem (d : ReadingSeries) (k : String) (v : Int)
    (q : String) (h : q ∈ dictKeys d) : q ∈ dictKeys (dictUpdate d k v) := by
  by_cases ha : d.any (fun p => p.1 = k) = true
  · rw [dictUpdate, if_pos ha]
    obtain ⟨r, hr, hrq⟩ := List.mem_map.mp h
    refine List.mem_map.mpr ⟨if r.1 = k then (k, v) else r, List.mem_map.mpr ⟨r, hr, rfl⟩, ?_⟩
    by_cases hrk : r.1 = k
    · rw [if_pos hrk]
      exact hrk ▸ hrq
    · rw [if_neg hrk]
      exact hrq
  · rw [dictUpdate, if_neg ha]
    simp [dictKeys] at h ⊢
    exact Or.inl h

/-- Folding updates never removes a key. -/
theorem mem_dictKeys_foldl_of_mem : ∀ (l : List (String × Int)) (d : ReadingSeries)
    (q : String), q ∈ dictKeys d → q ∈ dictKeys (List.foldl updateStep d l)
  | [], _, _, h => h
  | tv :: rest, d, q, h =>
    mem_dictKeys_foldl_of_mem rest (updateStep d tv) q
      (mem_dictKeys_update_of_mem d tv.1 tv.2 q h)

/-- Every reading folded in leaves its timestamp among the keys. -/
theorem mem_dictKeys_foldl : ∀ (l : List (String × Int)) (d : ReadingSeries),
    ∀ tv ∈ l, tv.1 ∈ dictKeys (List.foldl updateStep d l)
  | tv0 :: rest, d, tv, htv => by
    rcases List.mem_cons.mp htv with heq | hrest
    · subst heq
      exact mem_dictKeys_foldl_of_mem rest (updateStep d tv) tv.1
        (mem_dictKeys_update d tv.1 tv.2)
    · exact mem_dictKeys_foldl rest (updateStep d tv0) tv hrest

/-- An entry whose key is touched by no later update survives a fold. -/
theorem mem_foldl_of_not_mem_keys : ∀ (l : List (String × Int)) (d : ReadingSeries)
    (t : String) (v : Int), (t, v) ∈ d → t ∉ l.map Prod.fst →
    (t, v) ∈ List.foldl updateStep d l
  | [], _, _, _, h, _ => h
  | (s, w) :: rest, d, t, v, h, hnk => by
    simp [List.map_cons, List.mem_cons, not_or] at hnk
    obtain ⟨hts, htrest⟩ := hnk
    have hmem : (t, v) ∈ updateStep d (s, w) := by
      unfold updateStep dictUpdate
      by_cases ha : d.any (fun p => p.1 = s) = true
      · rw [if_pos ha]
        have : (if (t, v).1 = s then (s, w) else (t, v)) = (t, v) := by simp [hts]
        exact this ▸ List.mem_map_of_mem _ h
      · rw [if_neg ha]
        exact List.mem_append_left _ h
    exact mem_foldl_of_not_mem_keys rest (updateStep d (s, w)) t v hmem (by simpa using htrest)

/-- When the starting keys and all folded keys are distinct, every folded
reading is literally an entry of the resulting dict. -/
theorem mem_foldl_of_nodup : ∀ (l : List (String × Int)) (d : ReadingSeries),
    (dictKeys d ++ l.map Prod.fst).Nodup → ∀ tv ∈ l, tv ∈ List.foldl updateStep d l
  | (t, v) :: rest, d, hnd, tv, htv => by
    have hnd2 : (dictKeys d ++ t :: rest.map Prod.fst).Nodup := by
      simpa [List.map_cons] using hnd
    have hparts := List.nodup_append.mp hnd2
    have htkeys : t ∉ dictKeys d :=
      fun hmem => hparts.2.2 hmem (List.mem_cons_self t (rest.map Prod.fst))
    have htrest : t ∉ rest.map Prod.fst := (List.nodup_cons.mp hparts.2.1).1
    have hany : ¬ d.any (fun p => p.1 = t) = true := by
      intro ha
      obtain ⟨q, hq, hqk⟩ := List.any_eq_true.mp ha
      exact htkeys (List.mem_map.mpr ⟨q, hq, of_decide_eq_true hqk⟩)
    have hupd : updateStep d (t, v) = d ++ [(t, v)] := by
      unfold updateStep dictUpdate
      rw [if_neg hany]
    have hnd3 : (dictKeys (updateStep d (t, v)) ++ rest.map Prod.fst).Nodup := by
      rw [hupd]
      simpa [dictKeys, List.append_assoc] using hnd2
    rcases List.mem_cons.mp htv with heq | hrest
    · have hin : (t, v) ∈ updateStep d (t, v) := by
        rw [hupd]
        exact List.mem_append_right _ (List.mem_singleton.mpr rfl)
      rw [heq]
      exact mem_foldl_of_not_mem_keys rest (updateStep d (t, v)) t v hin htrest
    · exact mem_foldl_of_nodup rest (updateStep d (t, v)) hnd3 tv hrest

/-- Helper for C3: a forecast hourly entry that fails the well-formedness
test makes the loop body raise. -/
theorem processForecastEntry_error (h : ForecastHour) (hbad : fcEntryOk h = false)
    (d : ReadingSeries) : ∃ e, processForecastEntry d h = .error e := by
  obtain ⟨dt, idx⟩ := h
  cases dt with
  | none => exact ⟨.keyError "dateTime", rfl⟩
  | some t =>
    cases idx with
    | none => exact ⟨.keyError "indexes", rfl⟩
    | some l =>
      cases l with
      | nil => exact ⟨.indexError, rfl⟩
      | cons i is => simp [fcEntryOk] at hbad

/-- Helper for C3: a well-formed forecast hourly entry updates the dict. -/
theorem processForecastEntry_ok_exists (h : ForecastHour) (hok : fcEntryOk h = true)
    (d : ReadingSeries) : ∃ d2, processForecastEntry d h = .ok d2 := by
  obtain ⟨dt, idx⟩ := h
  cases dt with
  | none => simp [fcEntryOk] at hok
  | some t =>
    cases idx with
    | none => simp [fcEntryOk] at hok
    | some l =>
      cases l with
      | nil => simp [fcEntryOk] at hok
      | cons i is => exact ⟨dictUpdate d t i.aqi, rfl⟩

/-- Helper for C3: the forecast inner loop raises when some entry is
malformed. -/
theorem processForecastEntries_error : ∀ (l : List ForecastHour) (d : ReadingSeries),
    l.all fcEntryOk = false → ∃ e, processForecastEntries d l = .error e
  | [], _, hall => by simp at hall
  | h0 :: rest, d, hall => by
    by_cases h1 : fcEntryOk h0 = true
    · have h2 : rest.all fcEntryOk = false := by
        rw [List.all_cons, h1, Bool.true_and] at hall
        exact hall
      obtain ⟨d2, hd2⟩ := processForecastEntry_ok_exists h0 h1 d
      obtain ⟨e, he⟩ := processForecastEntries_error rest d2 h2
      exact ⟨e, by simp [processForecastEntries, hd2, he]⟩
    · obtain ⟨e, he⟩ := processForecastEntry_error h0 (by simpa using h1) d
      exact ⟨e, by simp [processForecastEntries, he]⟩

/-- Helper for C3: a malformed forecast page raises: either its
hourlyForecasts field is absent or some entry of it is malformed. -/
theorem processForecastPage_error (r : ForecastResponse) (d : ReadingSeries)
    (hbad : fcPageOk r = false) : ∃ e, processForecastPage d r = .error e := by
  cases hh : r.hourlyForecasts with
  | none => exact ⟨.keyError "hourlyForecasts", by simp [processForecastPage, hh]⟩
  | some l =>
    rw [fcPageOk, hh] at hbad
    obtain ⟨e, he⟩ := processForecastEntries_error l d hbad
    exact ⟨e, by simp [processForecastPage, hh, he]⟩

/-- Helper for C3 and C7: a well-formed forecast page processes to a fold
of dict updates over its readings. -/
theorem processForecastEntries_ok : ∀ (l : List ForecastHour) (d : ReadingSeries),
    l.all fcEntryOk = true →
    processForecastEntries d l = .ok (List.foldl updateStep d (l.filterMap fcEntryReading))
  | [], _, _ => rfl
  | ⟨dt, idx⟩ :: rest, d, hall => by
    rw [List.all_cons, Bool.and_eq_true] at hall
    obtain ⟨h1, h2⟩ := hall
    cases dt with
    | none => simp [fcEntryOk] at h1
    | some t =>
      cases idx with
      | none => simp [fcEntryOk] at h1
      | some l2 =>
        cases l2 with
        | nil => simp [fcEntryOk] at h1
        | cons i is =>
          simpa [processForecastEntries, processForecastEntry, fcEntryReading, updateStep] using
            processForecastEntries_ok rest (dictUpdate d t i.aqi) h2

/-- Helper for C3 and C7: one well-formed forecast page. -/
theorem processForecastPage_ok (r : ForecastResponse) (d : ReadingSeries)
    (h : fcPageOk r = true) :
    processForecastPage d r = .ok (List.foldl updateStep d (fcPageReadings r)) := by
  cases hh : r.hourlyForecasts with
  | none => simp [fcPageOk, hh] at h
  | some l =>
    rw [fcPageOk, hh] at h
    simp [processForecastPage, hh, fcPageReadings, processForecastEntries_ok l d h]

/-- Helper for C3: the forecast pagination loop raises when it reaches a
malformed page through a prefix of well-formed token-carrying pages. -/
theorem processForecastPages_error : ∀ (ps : List ForecastResponse) (p : ForecastResponse)
    (rest : List ForecastResponse) (d : ReadingSeries),
    (∀ q ∈ ps, q.nextPageToken.isSome = true ∧ fcPageOk q = true) →
    fcPageOk p = false →
    ∃ e, processForecastPages d (ps ++ p :: rest) = .error e
  | [], p, rest, d, _, hbad => by
    obtain ⟨e, he⟩ := processForecastPage_error p d hbad
    exact ⟨e, by simp [processForecastPages, he]⟩
  | q :: ps, p, rest, d, hq, hbad => by
    have hqq := hq q (List.mem_cons_self q ps)
    have hpage := processForecastPage_ok q d hqq.2
    obtain ⟨tk, htk⟩ := Option.isSome_iff_exists.mp hqq.1
    obtain ⟨e, he⟩ := processForecastPages_error ps p rest
      (List.foldl updateStep d (fcPageReadings q))
      (fun r hr => hq r (List.mem_cons_of_mem q hr)) hbad
    exact ⟨e, by simp [processForecastPages, hpage, htk, he]⟩

/-- Helper for C3: the history pagination loop raises when it reaches a
page lacking hoursInfo through a prefix of well-formed token-carrying
pages. -/
theorem processHistoryPages_error : ∀ (ps : List HistoryResponse) (p : HistoryResponse)
    (rest : List HistoryResponse) (d : ReadingSeries),
    (∀ q ∈ ps, q.nextPageToken.isSome = true ∧ pageOk q = true) →
    p.hoursInfo = none →
    ∃ e, processHistoryPages d (ps ++ p :: rest) = .error e
  | [], p, rest, d, _, hbad => by
    exact ⟨.keyError "hoursInfo", by simp [processHistoryPages, processHistoryPage, hbad]⟩
  | q :: ps, p, rest, d, hq, hbad => by
    have hqq := hq q (List.mem_cons_self q ps)
    have hpage := processHistoryPage_ok q d hqq.2
    obtain ⟨tk, htk⟩ := Option.isSome_iff_exists.mp hqq.1
    obtain ⟨e, he⟩ := processHistoryPages_error ps p rest
      (List.foldl updateStep d (pageReadings q))
      (fun r hr => hq r (List.mem_cons_of_mem q hr)) hbad
    exact ⟨e, by simp [processHistoryPages, hpage, htk, he]⟩

/-- C3 (amended). A failing endpoint call aborts the whole aggregation
with an error and no partial series is returned: a current-conditions
response missing its dateTime or its indexes field, or with an empty
indexes array, always makes the aggregation error, whatever the other
responses hold; a malformed forecast page (hourlyForecasts absent, or
some entry missing dateTime or indexes or with an empty indexes array)
reached through well-formed token-carrying predecessors makes the
aggregation error; and a history response lacking its top-level
hoursInfo field, reached through well-formed token-carrying
predecessors, means the aggregation never returns a series. However a
history hourly entry missing its dateTime or its indexes field is
silently skipped rather than failing, so a history response with such
entries still yields a (quietly incomplete) series. -/
theorem c3_failure_handling :
    (∀ (histPages : List HistoryResponse) (fcPages : List ForecastResponse)
        (idxs : Option (List IndexEntry)),
      ∃ e, aggregateEnvironmental fcPages ⟨none, idxs⟩ histPages = .error e) ∧
    (∀ (histPages : List HistoryResponse) (fcPages : List ForecastResponse) (t : String),
      ∃ e, aggregateEnvironmental fcPages ⟨some t, none⟩ histPages = .error e) ∧
    (∀ (histPages : List HistoryResponse) (fcPages : List ForecastResponse) (t : String),
      ∃ e, aggregateEnvironmental fcPages ⟨some t, some []⟩ histPages = .error e) ∧
    (∀ (ps : List ForecastResponse) (p : ForecastResponse) (rest : List ForecastResponse)
        (cur : CurrentResponse) (histPages : List HistoryResponse),
      (∀ q ∈ ps, q.nextPageToken.isSome = true ∧ fcPageOk q = true) →
      fcPageOk p = false →
      ∃ e, aggregateEnvironmental (ps ++ p :: rest) cur histPages = .error e) ∧
    (∀ (fcPages : List ForecastResponse) (cur : CurrentResponse)
        (ps : List HistoryResponse) (p : HistoryResponse) (rest : List HistoryResponse),
      (∀ q ∈ ps, q.nextPageToken.isSome = true ∧ pageOk q = true) →
      p.hoursInfo = none →
      ∀ s, aggregateEnvironmental fcPages cur (ps ++ p :: rest) ≠ .ok s) ∧
    (∀ (d : ReadingSeries) (t : String) (rest : List HourlyInfo),
      processHistoryEntries d (⟨some t, none⟩ :: rest) = processHistoryEntries d rest) ∧
    (∀ (d : ReadingSeries) (idxs : Option (List IndexEntry)) (rest : List HourlyInfo),
      processHistoryEntries d (⟨none, idxs⟩ :: rest) = processHistoryEntries d rest) := by
  refine ⟨?_, ?_, ?_, ?_, ?_, fun d t rest => rfl, fun d idxs rest => rfl⟩
  · intro histPages fcPages idxs
    cases hfc : processForecastPages [] fcPages with
    | error e => exact ⟨e, by simp [aggregateEnvironmental, hfc]⟩
    | ok v =>
      exact ⟨.keyError "dateTime", by simp [aggregateEnvironmental, hfc, processCurrent]⟩
  · intro histPages fcPages t
    cases hfc : processForecastPages [] fcPages with
    | error e => exact ⟨e, by simp [aggregateEnvironmental, hfc]⟩
    | ok v =>
      exact ⟨.keyError "indexes", by simp [aggregateEnvironmental, hfc, processCurrent]⟩
  · intro histPages fcPages t
    cases hfc : processForecastPages [] fcPages with
    | error e => exact ⟨e, by simp [aggregateEnvironmental, hfc]⟩
    | ok v =>
      exact ⟨.indexError, by simp [aggregateEnvironmental, hfc, processCurrent]⟩
  · intro ps p rest cur histPages hps hbad
    obtain ⟨e, he⟩ := processForecastPages_error ps p rest [] hps hbad
    exact ⟨e, by simp [aggregateEnvironmental, he]⟩
  · intro fcPages cur ps p rest hps hbad s hs
    cases hfc : processForecastPages [] fcPages with
    | error e => simp [aggregateEnvironmental, hfc] at hs
    | ok v =>
      obtain ⟨d1, n1⟩ := v
      cases hcur : processCurrent d1 cur with
      | error e => simp [aggregateEnvironmental, hfc, hcur] at hs
      | ok d2 =>
        obtain ⟨e, he⟩ := processHistoryPages_error ps p rest d2 hps hbad
        simp [aggregateEnvironmental, hfc, hcur, he] at hs

/-- The forecast pagination loop over well-formed pages, of which
exactly the last lacks a continuation token: one call per page, folding
every emitted reading into the dict in order. -/
theorem processForecastPages_ok : ∀ (ps : List ForecastResponse) (plast : ForecastResponse)
    (d : ReadingSeries),
    (∀ p ∈ ps, p.nextPageToken.isSome = true) →
    plast.nextPageToken = none →
    (∀ p ∈ ps, fcPageOk p = true) →
    fcPageOk plast = true →
    processForecastPages d (ps ++ [plast]) =
      .ok (List.foldl updateStep d (allFcPageReadings (ps ++ [plast])), ps.length + 1)
  | [], plast, d, _, hLast, _, hOkLast => by
    simp [processForecastPages, processForecastPage_ok plast d hOkLast, hLast,
      allFcPageReadings]
  | p :: ps, plast, d, hTok, hLast, hOkPs, hOkLast => by
    have hp := processForecastPage_ok p d (hOkPs p (List.mem_cons_self p ps))
    obtain ⟨tk, htk⟩ := Option.isSome_iff_exists.mp (hTok p (List.mem_cons_self p ps))
    have ih := processForecastPages_ok ps plast (List.foldl updateStep d (fcPageReadings p))
      (fun q hq => hTok q (List.mem_cons_of_mem p hq)) hLast
      (fun q hq => hOkPs q (List.mem_cons_of_mem p hq)) hOkLast
    simp [processForecastPages, hp, htk, ih, allFcPageReadings, List.foldl_append]
    omega

/-- The fetch_all_resources loop over a scripted bundle sequence of which
exactly the last lacks a next link: one call per bundle, and the result
is the concatenation of every entry list in order. -/
theorem fetch_all_resources_ok : ∀ (bs : List FHIRBundle) (blast : FHIRBundle)
    (acc : List String),
    (∀ b ∈ bs, (nextLink b.link).isSome = true) →
    nextLink blast.link = none →
    fetch_all_resources acc (bs ++ [blast]) =
      .ok (acc ++ ((bs ++ [blast]).map bundleEntries).flatten, bs.length + 1)
  | [], blast, acc, _, hLast => by
    cases hb : blast.entry with
    | none => simp [fetch_all_resources, hLast, hb, bundleEntries]
    | some l =>
      cases l with
      | nil => simp [fetch_all_resources, hLast, hb, bundleEntries]
      | cons x xs => simp [fetch_all_resources, hLast, hb, bundleEntries]
  | b :: bs, blast, acc, hTok, hLast => by
    obtain ⟨u, hu⟩ := Option.isSome_iff_exists.mp (hTok b (List.mem_cons_self b bs))
    have hres : (match b.entry with
        | some (x :: xs) => acc ++ x :: xs
        | _ => acc) = acc ++ bundleEntries b := by
      cases hb : b.entry with
      | none => simp [bundleEntries, hb]
      | some l =>
        cases l with
        | nil => simp [bundleEntries, hb]
        | cons x xs => simp [bundleEntries, hb]
    have ih := fetch_all_resources_ok bs blast (acc ++ bundleEntries b)
      (fun q hq => hTok q (List.mem_cons_of_mem b hq)) hLast
    simp [fetch_all_resources, hu, hres, ih, List.append_assoc]

/-- C7. Each pagination loop repeats its call with the returned
continuation token and terminates exactly at the first response without
one. Given scripted page sequences of which every page but the last
carries a token and the last does not (the air-quality pages also well
formed), the history loop issues one call per page and folds every
emitted reading into the merged dict in emission order — every emitted
timestamp is a key of the result, and with pairwise-distinct timestamps
every emitted reading is literally an entry —, the forecast loop does
the same, and the fetch_all_resources bundle loop issues one call per
bundle and returns the concatenation of every page's resources. -/
theorem c7_each_pagination_loop
    (ps : List HistoryResponse) (plast : HistoryResponse)
    (qs : List ForecastResponse) (qlast : ForecastResponse)
    (bs : List FHIRBundle) (blast : FHIRBundle)
    (d df : ReadingSeries) (acc : List String)
    (hTok : ∀ p ∈ ps, p.nextPageToken.isSome = true)
    (hLast : plast.nextPageToken = none)
    (hOk : ∀ p ∈ ps ++ [plast], pageOk p = true)
    (hTokF : ∀ q ∈ qs, q.nextPageToken.isSome = true)
    (hLastF : qlast.nextPageToken = none)
    (hOkF : ∀ q ∈ qs ++ [qlast], fcPageOk q = true)
    (hTokB : ∀ b ∈ bs, (nextLink b.link).isSome = true)
    (hLastB : nextLink blast.link = none) :
    (processHistoryPages d (ps ++ [plast]) =
        .ok (List.foldl updateStep d (allPageReadings (ps ++ [plast])), ps.length + 1) ∧
      (∀ tv ∈ allPageReadings (ps ++ [plast]),
        tv.1 ∈ dictKeys (List.foldl updateStep d (allPageReadings (ps ++ [plast])))) ∧
      ((dictKeys d ++ (allPageReadings (ps ++ [plast])).map Prod.fst).Nodup →
        ∀ tv ∈ allPageReadings (ps ++ [plast]),
          tv ∈ List.foldl updateStep d (allPageReadings (ps ++ [plast])))) ∧
    processForecastPages df (qs ++ [qlast]) =
      .ok (List.foldl updateStep df (allFcPageReadings (qs ++ [qlast])), qs.length + 1) ∧
    fetch_all_resources acc (bs ++ [blast]) =
      .ok (acc ++ ((bs ++ [blast]).map bundleEntries).flatten, bs.length + 1) :=
  ⟨⟨processHistoryPages_ok ps plast d hTok hLast
        (fun p hp => hOk p (List.mem_append_left _ hp))
        (hOk plast (List.mem_append_right _ (List.mem_singleton.mpr rfl))),
    mem_dictKeys_foldl (allPageReadings (ps ++ [plast])) d,
    mem_foldl_of_nodup (allPageReadings (ps ++ [plast])) d⟩,
   processForecastPages_ok qs qlast df hTokF hLastF
      (fun q hq => hOkF q (List.mem_append_left _ hq))
      (hOkF qlast (List.mem_append_right _ (List.mem_singleton.mpr rfl))),
   fetch_all_resources_ok bs blast acc hTokB hLastB⟩

/-- C7 witness: a synthetic three-page history sequence (tokens on the
first two pages only), a two-page forecast sequence, and a three-bundle
resource sequence (next links on the first two bundles only, the second
with an empty entry list): each loop issues one call per page and the
merged results hold every emitted reading and resource. -/
theorem c7_each_pagination_loop_witness :
    processHistoryPages []
        ([⟨some [⟨some "t1", some [⟨1⟩]⟩], some "tokA"⟩,
          ⟨some [⟨some "t2", some [⟨2⟩]⟩], some "tokB"⟩] ++
         [⟨some [⟨some "t3", some [⟨3⟩]⟩], none⟩])
      = .ok ([("t1", 1), ("t2", 2), ("t3", 3)], 3) ∧
    processForecastPages []
        ([⟨some [⟨some "f1", some [⟨4⟩]⟩], some "tokC"⟩] ++
         [⟨some [⟨some "f2", some [⟨5⟩]⟩], none⟩])
      = .ok ([("f1", 4), ("f2", 5)], 2) ∧
    fetch_all_resources []
        ([⟨some ["r1"], [⟨"next", "u1"⟩]⟩, ⟨some [], [⟨"next", "u2"⟩]⟩] ++
         [⟨some ["r2", "r3"], [⟨"self", "u3"⟩]⟩])
      = .ok (["r1", "r2", "r3"], 3) := by
  have h := c7_each_pagination_loop
    [⟨some [⟨some "t1", some [⟨1⟩]⟩], some "tokA"⟩,
     ⟨some [⟨some "t2", some [⟨2⟩]⟩], some "tokB"⟩]
    ⟨some [⟨some "t3", some [⟨3⟩]⟩], none⟩
    [⟨some [⟨some "f1", some [⟨4⟩]⟩], some "tokC"⟩]
    ⟨some [⟨some "f2", some [⟨5⟩]⟩], none⟩
    [⟨some ["r1"], [⟨"next", "u1"⟩]⟩, ⟨some [], [⟨"next", "u2"⟩]⟩]
    ⟨some ["r2", "r3"], [⟨"self", "u3"⟩]⟩
    [] [] []
    (by decide) rfl (by decide) (by decide) rfl (by decide) (by decide) rfl
  exact ⟨h.1.1, h.2.1, h.2.2⟩

/-- C8 counterexample. A patient record with no name entries and two
addresses fails in name resolution with IndexError (the fallback indexes
`patient.name[0]`) before the address logic runs, so the
multiple-addresses error the claim asserts for every such record is not
the error raised. -/
theorem c8_empty_names_counterexample :
    get_patient_demographics
        ⟨[], none, none,
         [⟨some "1 First St", [], "", "", "", "", ""⟩,
          ⟨some "2 Second St", [], "", "", "", "", ""⟩]⟩
      = .error .indexError ∧
    PyErr.indexError ≠ .exceptionMsg "Multiple addresses detected!" := by
  exact ⟨rfl, fun h => PyErr.noConfusion h⟩

end SmokeSpecialist
